import Mathlib

/-!
Verification of the Backend gateway repository.

Shallow embedding of the parts of the code the claims concern:
* `AnthropicRoutes` — the hand-parsed `/v1/messages/count_tokens` handler
  (src/app/api/routes/anthropic.py).
* `APIKeyRepo` — APIKeyRepository (src/app/repositories/api_key_repository.py).
* `UserRepo`/`UserSvc`/`AuthRoutes` — UserRepository / UserService / the
  join-beta route (src/app/repositories/user_repository.py,
  src/app/services/user_service.py, src/app/api/routes/auth.py).
* `AuthSvc` — AuthService.refresh_tokens / create_token_pair
  (src/app/services/auth_service.py).
* `DepsFlexible` — the API-key database authentication path
  (src/app/api/deps_flexible.py).
* `Adapter` — AnthropicAdapter request/response/stream conversion
  (src/app/services/anthropic_adapter.py).

Database tables are modelled as lists of rows; async I/O as explicit state
passing; Python truthiness is made explicit at each branch.
-/

namespace AnthropicRoutes

/-- One element of a `system`/`content` list in the hand-parsed count_tokens
body.  The handler only reads a block's `text` field when it is present
(`isinstance(block, dict) and 'text' in block`, or `hasattr(block, 'text')`);
any other block contributes nothing. -/
inductive CTBlock where
  | withText (text : String)
  | other
deriving DecidableEq, Repr

/-- The shape of a `system` field or of one message's `content` field:
a plain string, a list of blocks, or any other JSON value (which the
handler's `isinstance` chain skips, contributing zero characters). -/
inductive CTContent where
  | str (s : String)
  | blocks (bs : List CTBlock)
  | other
deriving DecidableEq, Repr

/-- One entry of the `messages` list; `msg.get('content')` may be absent. -/
structure CTMessage where
  content : Option CTContent
deriving DecidableEq, Repr

/-- The hand-parsed JSON body of POST /v1/messages/count_tokens.
Only the keys the handler reads are modelled; `Option.none` means the key is
absent from the body. -/
structure CTBody where
  model : Option String
  messages : Option (List CTMessage)
  system : Option CTContent
deriving DecidableEq, Repr

/-- Characters contributed by one block: `len(block['text'])` when the block
has a `text` field, else nothing. -/
def blockChars : CTBlock → Nat
  | .withText t => t.length
  | .other => 0

/-- Characters contributed by a `system` or `content` value, mirroring the
`isinstance(str) / isinstance(list)` chain of the handler. -/
def contentChars : CTContent → Nat
  | .str s => s.length
  | .blocks bs => (bs.map blockChars).sum
  | .other => 0

/-- Outcome of the count_tokens route: either the JSON body
`{"input_tokens": n}` or an error response with an HTTP status and an
Anthropic error-envelope type. -/
inductive CTResult where
  | ok (input_tokens : Nat)
  | errorResponse (statusCode : Nat) (error_type : String)
deriving DecidableEq, Repr

/-- Characters contributed by the optional `system` field (`if system:` in
the handler skips a falsy value, which contributes zero characters either
way). -/
def systemCharsOf : Option CTContent → Nat
  | none => 0
  | some c => contentChars c

/-- Characters contributed by one message (`msg.get('content')`). -/
def messageCharsOf (m : CTMessage) : Nat :=
  match m.content with
  | some c => contentChars c
  | none => 0

/-- The count_tokens handler.  Missing `model` or `messages` raises a
`ValueError`, which the handler's single `except Exception` clause turns into
a 500 response with an `api_error` envelope (there is no narrower
`except ValueError` branch in this route).  Otherwise it sums character
counts over `system` and every message's `content` and divides by 3. -/
def count_tokens (body : CTBody) : CTResult :=
  if body.model.isNone then
    .errorResponse 500 "api_error"
  else if body.messages.isNone then
    .errorResponse 500 "api_error"
  else
    let messages := body.messages.getD []
    .ok ((systemCharsOf body.system + (messages.map messageCharsOf).sum) / 3)

/-- *Spec-side* per-value character count, written from the claim's words:
the length if a string, or the lengths of the text fields of its blocks if a
list. -/
def specValueChars : Option CTContent → Nat
  | some (.str s) => s.length
  | some (.blocks bs) =>
      (bs.map (fun b => match b with | .withText t => t.length | .other => 0)).sum
  | _ => 0

/-- *Spec-side* character total, written from the claim's words: the total
character count summed over the system field and each message's content. -/
def specCharTotal (body : CTBody) : Nat :=
  specValueChars body.system
    + ((body.messages.getD []).map (fun m => specValueChars m.content)).sum

end AnthropicRoutes

/-- C3 counterexample: a body with no `model` key makes the handler respond
with HTTP 500 (`api_error`), not with the HTTP 400 the claim states — the
`ValueError` raised for the missing field is caught by the route's generic
`except Exception` clause. -/
theorem count_tokens_missing_model_is_500_not_400 :
    AnthropicRoutes.count_tokens ⟨none, some [], none⟩
      = .errorResponse 500 "api_error"
    ∧ (500 : Nat) ≠ 400 := by
  constructor
  · rfl
  · decide

/-- C3 (amended): for every count_tokens body missing `model` or missing
`messages`, the endpoint responds with HTTP status 500 and an `api_error`
Anthropic envelope (the hand-parsed validation `ValueError` falls into the
route's generic exception handler). -/
theorem count_tokens_missing_field_returns_500
    (body : AnthropicRoutes.CTBody)
    (h : body.model = none ∨ body.messages = none) :
    AnthropicRoutes.count_tokens body = .errorResponse 500 "api_error" := by
  unfold AnthropicRoutes.count_tokens
  rcases h with h | h
  · simp [h]
  · rcases hm : body.model with _ | m
    · simp [hm]
    · simp [hm, h]

/-- C3 witness: the amended theorem applied at the concrete body
`{"messages": []}` (no `model` key). -/
theorem count_tokens_missing_field_returns_500_witness :
    AnthropicRoutes.count_tokens ⟨none, some [], none⟩
      = .errorResponse 500 "api_error" :=
  count_tokens_missing_field_returns_500 ⟨none, some [], none⟩ (Or.inl rfl)

namespace AnthropicRoutes

/-- The code's per-value character count agrees with the claim's wording. -/
theorem valueChars_spec (o : Option CTContent) :
    systemCharsOf o = specValueChars o := by
  cases o with
  | none => rfl
  | some c =>
    cases c with
    | str s => rfl
    | other => rfl
    | blocks bs =>
      show (bs.map blockChars).sum = _
      refine congrArg List.sum (List.map_congr_left ?_)
      intro b _
      cases b <;> rfl

/-- Per-message variant of `valueChars_spec`. -/
theorem messageChars_spec (m : CTMessage) :
    messageCharsOf m = specValueChars m.content := by
  rw [← valueChars_spec]
  rcases m with ⟨c⟩
  cases c <;> rfl

end AnthropicRoutes

/-- C4: for every body containing `model` and `messages`, the returned
`input_tokens` is the floor division by 3 of the total character count over
the system field and every message's content, as the claim words it. -/
theorem count_tokens_is_char_total_div_3
    (body : AnthropicRoutes.CTBody)
    (hm : body.model.isSome) (hms : body.messages.isSome) :
    AnthropicRoutes.count_tokens body
      = .ok (AnthropicRoutes.specCharTotal body / 3) := by
  rcases hmodel : body.model with _ | m
  · simp [hmodel] at hm
  rcases hmsgs : body.messages with _ | msgs
  · simp [hmsgs] at hms
  unfold AnthropicRoutes.count_tokens AnthropicRoutes.specCharTotal
  simp only [hmodel, hmsgs, Option.isNone_some, Bool.false_eq_true, if_false,
    Option.getD_some]
  rw [AnthropicRoutes.valueChars_spec,
    List.map_congr_left (fun m _ => AnthropicRoutes.messageChars_spec m)]

/-- C4 witness: `system="abc"` with one user message `content="defghi"`
yields `input_tokens == 3`. -/
theorem count_tokens_is_char_total_div_3_witness :
    AnthropicRoutes.count_tokens
        ⟨some "m", some [⟨some (.str "defghi")⟩], some (.str "abc")⟩
      = .ok 3 := by
  have h := count_tokens_is_char_total_div_3
    ⟨some "m", some [⟨some (.str "defghi")⟩], some (.str "abc")⟩
    (by decide) (by decide)
  simpa using h

/-! ## APIKey model and APIKeyRepository (src/app/models/api_key.py,
src/app/repositories/api_key_repository.py) -/

/-- One row of the `api_keys` table.  Timestamps are abstract integers. -/
structure APIKeyRow where
  id : Nat
  user_id : Nat
  key : String
  name : Option String
  config_type : String
  is_active : Bool
  last_used_at : Option Int
  expires_at : Option Int
deriving DecidableEq, Repr

namespace APIKeyRepo

/-- `get_by_id`: `SELECT ... WHERE APIKey.id == key_id`, first (unique) row. -/
def get_by_id (db : List APIKeyRow) (key_id : Nat) : Option APIKeyRow :=
  db.find? (fun k => k.id == key_id)

/-- `get_by_key`: `SELECT ... WHERE APIKey.key == key`, first (unique) row. -/
def get_by_key (db : List APIKeyRow) (key : String) : Option APIKeyRow :=
  db.find? (fun k => k.key == key)

/-- `delete(key_id, user_id)`: fetch by id; delete the row and return True
only when it exists and is owned by `user_id`, else return False leaving the
table unchanged.  Returns (result, table after the call). -/
def delete (db : List APIKeyRow) (key_id user_id : Nat) :
    Bool × List APIKeyRow :=
  match get_by_id db key_id with
  | some k =>
      if k.user_id = user_id then
        (true, db.eraseP (fun x => x.id == key_id))
      else (false, db)
  | none => (false, db)

/-- Set `is_active` on the first row with the given id (the ORM mutates the
single fetched row; ids are the primary key). -/
def setStatusFirst : List APIKeyRow → Nat → Bool → List APIKeyRow
  | [], _, _ => []
  | x :: xs, key_id, act =>
      if x.id = key_id then { x with is_active := act } :: xs
      else x :: setStatusFirst xs key_id act

/-- `update_status(key_id, user_id, is_active)`: fetch by id; update and
return the row only when it exists and is owned by `user_id`, else return
None leaving the table unchanged. -/
def update_status (db : List APIKeyRow) (key_id user_id : Nat)
    (is_active : Bool) : Option APIKeyRow × List APIKeyRow :=
  match get_by_id db key_id with
  | some k =>
      if k.user_id = user_id then
        (some { k with is_active := is_active },
         setStatusFirst db key_id is_active)
      else (none, db)
  | none => (none, db)

/-- After erasing the (unique) row with a given id, no row with that id
remains. -/
theorem eraseP_id_not_mem (db : List APIKeyRow) (key_id : Nat)
    (hn : (db.map (fun k => k.id)).Nodup) :
    ∀ x ∈ db.eraseP (fun x => x.id == key_id), x.id ≠ key_id := by
  induction db with
  | nil => simp
  | cons a l ih =>
    rcases List.nodup_cons.mp hn with ⟨ha, hl⟩
    by_cases h : a.id = key_id
    · rw [List.eraseP_cons_of_pos (by simpa using h)]
      intro x hx hxid
      have hmem : a.id ∈ List.map (fun k => k.id) l := by
        rw [h, ← hxid]
        exact List.mem_map_of_mem (fun k => k.id) hx
      exact ha hmem
    · rw [List.eraseP_cons_of_neg (by simpa using h)]
      intro x hx
      rcases List.mem_cons.mp hx with rfl | hx
      · exact h
      · exact ih hl x hx

/-- Erasing one row keeps every row whose id differs. -/
theorem mem_eraseP_of_ne (db : List APIKeyRow) (key_id : Nat) :
    ∀ x ∈ db, x.id ≠ key_id → x ∈ db.eraseP (fun x => x.id == key_id) := by
  induction db with
  | nil => simp
  | cons a l ih =>
    intro x hx hne
    by_cases h : a.id = key_id
    · rw [List.eraseP_cons_of_pos (by simpa using h)]
      rcases List.mem_cons.mp hx with rfl | hx
      · exact absurd h hne
      · exact hx
    · rw [List.eraseP_cons_of_neg (by simpa using h)]
      rcases List.mem_cons.mp hx with rfl | hx
      · exact List.mem_cons_self _ _
      · exact List.mem_cons_of_mem _ (ih x hx hne)

end APIKeyRepo

/-- C7: APIKeyRepository ownership enforcement.  With a mismatched or absent
owner, `delete` returns False and `update_status` returns None and in both
cases the table is left unchanged; when the key exists and is owned by the
caller, `delete` returns True and removes the key (keeping all other rows)
and `update_status` returns the key updated to the requested `is_active`. -/
theorem api_key_ownership (db : List APIKeyRow) (key_id user_id : Nat)
    (act : Bool) (hn : (db.map (fun k => k.id)).Nodup) :
    ((∀ k, APIKeyRepo.get_by_id db key_id = some k → k.user_id ≠ user_id) →
        APIKeyRepo.delete db key_id user_id = (false, db)
        ∧ APIKeyRepo.update_status db key_id user_id act = (none, db))
    ∧ (∀ k, APIKeyRepo.get_by_id db key_id = some k → k.user_id = user_id →
        (APIKeyRepo.delete db key_id user_id).1 = true
        ∧ (∀ x ∈ (APIKeyRepo.delete db key_id user_id).2, x.id ≠ key_id)
        ∧ (∀ x ∈ db, x.id ≠ key_id →
             x ∈ (APIKeyRepo.delete db key_id user_id).2)
        ∧ (APIKeyRepo.update_status db key_id user_id act).1
            = some { k with is_active := act }) := by
  constructor
  · intro hmis
    cases hfind : APIKeyRepo.get_by_id db key_id with
    | none =>
      constructor <;> simp [APIKeyRepo.delete, APIKeyRepo.update_status, hfind]
    | some k =>
      have hne := hmis k hfind
      constructor <;>
        simp [APIKeyRepo.delete, APIKeyRepo.update_status, hfind, hne]
  · intro k hfind hown
    refine ⟨?_, ?_, ?_, ?_⟩
    · simp [APIKeyRepo.delete, hfind, hown]
    · intro x hx
      have h2 : (APIKeyRepo.delete db key_id user_id).2
          = db.eraseP (fun x => x.id == key_id) := by
        simp [APIKeyRepo.delete, hfind, hown]
      rw [h2] at hx
      exact APIKeyRepo.eraseP_id_not_mem db key_id hn x hx
    · intro x hx hne
      have h2 : (APIKeyRepo.delete db key_id user_id).2
          = db.eraseP (fun x => x.id == key_id) := by
        simp [APIKeyRepo.delete, hfind, hown]
      rw [h2]
      exact APIKeyRepo.mem_eraseP_of_ne db key_id x hx hne
    · simp [APIKeyRepo.update_status, hfind, hown]

/-- C7 witness: the theorem applied to a one-row table, for the owning user
(success branch) and a non-owning user id (failure branch). -/
theorem api_key_ownership_witness :
    (APIKeyRepo.delete [⟨1, 10, "sk-a", none, "antigravity", true, none, none⟩]
        1 10).1 = true
    ∧ APIKeyRepo.update_status
        [⟨1, 10, "sk-a", none, "antigravity", true, none, none⟩] 1 99 false
      = (none, [⟨1, 10, "sk-a", none, "antigravity", true, none, none⟩]) := by
  refine ⟨?_, ?_⟩
  · exact ((api_key_ownership
      [⟨1, 10, "sk-a", none, "antigravity", true, none, none⟩] 1 10 false
      (by decide)).2 ⟨1, 10, "sk-a", none, "antigravity", true, none, none⟩
      (by decide) rfl).1
  · exact ((api_key_ownership
      [⟨1, 10, "sk-a", none, "antigravity", true, none, none⟩] 1 99 false
      (by decide)).1 (by decide)).2

/-! ## User model, UserRepository, UserService and the join-beta route
(src/app/repositories/user_repository.py, src/app/services/user_service.py,
src/app/api/routes/auth.py) -/

/-- One row of the `users` table. -/
structure UserRow where
  id : Nat
  username : String
  password_hash : Option String
  oauth_id : Option String
  avatar_url : Option String
  trust_level : Nat
  is_active : Bool
  is_silenced : Bool
  beta : Nat
  last_login_at : Option Int
deriving DecidableEq, Repr

/-- The `users` table with its autoincrement counter; every existing row's id
is below `nextId`. -/
structure UsersTable where
  rows : List UserRow
  nextId : Nat
deriving DecidableEq, Repr

/-- The repository-level domain errors raised by UserRepository. -/
inductive RepoError where
  | userNotFound
  | userAlreadyExists
deriving DecidableEq, Repr

namespace UserRepo

/-- `get_by_id`: first (unique) row with the given id. -/
def get_by_id (t : UsersTable) (user_id : Nat) : Option UserRow :=
  t.rows.find? (fun u => u.id == user_id)

/-- `get_by_username`. -/
def get_by_username (t : UsersTable) (username : String) : Option UserRow :=
  t.rows.find? (fun u => u.username == username)

/-- `get_by_oauth_id`. -/
def get_by_oauth_id (t : UsersTable) (oauth_id : String) : Option UserRow :=
  t.rows.find? (fun u => u.oauth_id == some oauth_id)

/-- `create(username, password_hash?, oauth_id?, avatar_url?, trust_level=0,
is_active=True, is_silenced=False, beta=0)`: fails with AlreadyExists when
the username, or the oauth_id when provided, collides; otherwise appends a
fresh row. -/
def create (t : UsersTable) (username : String)
    (password_hash : Option String := none)
    (oauth_id : Option String := none)
    (avatar_url : Option String := none)
    (trust_level : Nat := 0)
    (is_active : Bool := true) (is_silenced : Bool := false)
    (beta : Nat := 0) : Except RepoError (UserRow × UsersTable) :=
  if (get_by_username t username).isSome then
    .error .userAlreadyExists
  else if (match oauth_id with
           | some oid => (get_by_oauth_id t oid).isSome
           | none => false) then
    .error .userAlreadyExists
  else
    let row : UserRow :=
      ⟨t.nextId, username, password_hash, oauth_id, avatar_url, trust_level,
       is_active, is_silenced, beta, none⟩
    .ok (row, ⟨t.rows ++ [row], t.nextId + 1⟩)

/-- The keyword arguments accepted by `update`'s allow-list
(`{username, password_hash, oauth_id, avatar_url, trust_level, is_active,
is_silenced, last_login_at, beta}`); `none` means the keyword was not
passed. -/
structure UpdateFields where
  username : Option String := none
  password_hash : Option (Option String) := none
  oauth_id : Option (Option String) := none
  avatar_url : Option (Option String) := none
  trust_level : Option Nat := none
  is_active : Option Bool := none
  is_silenced : Option Bool := none
  last_login_at : Option (Option Int) := none
  beta : Option Nat := none
deriving DecidableEq, Repr

/-- `setattr` for each supplied allow-listed field. -/
def applyUpdate (u : UserRow) (f : UpdateFields) : UserRow :=
  { u with
    username := f.username.getD u.username
    password_hash := f.password_hash.getD u.password_hash
    oauth_id := f.oauth_id.getD u.oauth_id
    avatar_url := f.avatar_url.getD u.avatar_url
    trust_level := f.trust_level.getD u.trust_level
    is_active := f.is_active.getD u.is_active
    is_silenced := f.is_silenced.getD u.is_silenced
    last_login_at := f.last_login_at.getD u.last_login_at
    beta := f.beta.getD u.beta }

/-- Mutate the first (unique) row with the given id, as the ORM does to the
single fetched row. -/
def updateFirst : List UserRow → Nat → UpdateFields → List UserRow
  | [], _, _ => []
  | x :: xs, uid, f =>
      if x.id = uid then applyUpdate x f :: xs
      else x :: updateFirst xs uid f

/-- `update(user_id, **kwargs)`: NotFound when the id is absent, else apply
the allow-listed fields to that row and return it. -/
def update (t : UsersTable) (user_id : Nat) (f : UpdateFields) :
    Except RepoError (UserRow × UsersTable) :=
  match get_by_id t user_id with
  | none => .error .userNotFound
  | some u =>
      .ok (applyUpdate u f, ⟨updateFirst t.rows user_id f, t.nextId⟩)

end UserRepo

namespace UserSvc

/-- `UserService.create_user_from_oauth(oauth_data)`: upsert by oauth id —
refresh avatar/trust level on the existing row, else create a passwordless
user. -/
def create_user_from_oauth (t : UsersTable) (username oauth_id : String)
    (avatar_url : Option String) (trust_level : Nat) :
    Except RepoError (UserRow × UsersTable) :=
  match UserRepo.get_by_oauth_id t oauth_id with
  | some existing =>
      UserRepo.update t existing.id
        { avatar_url := some avatar_url, trust_level := some trust_level }
  | none =>
      UserRepo.create t username none (some oauth_id) avatar_url trust_level

/-- `UserService.join_beta(user_id)` sets `beta = 1` through the repository. -/
def join_beta (t : UsersTable) (user_id : Nat) :
    Except RepoError (UserRow × UsersTable) :=
  UserRepo.update t user_id { beta := some 1 }

end UserSvc

/-- The JSON body of POST /api/auth/join-beta's success response. -/
structure JoinBetaResponse where
  success : Bool
  message : String
  beta : Nat
deriving DecidableEq, Repr

namespace AuthRoutes

/-- The "now joined" message of the join-beta route. -/
def joinedMessage : String := "成功加入 Beta 计划"

/-- The "already joined" message of the join-beta route. -/
def alreadyJoinedMessage : String := "您已经加入了 Beta 计划"

/-- The join_beta route handler: re-reads the latest user row, returns the
"already joined" response without writing when `beta == 1`, else sets
`beta = 1` and returns the "now joined" response; UserNotFoundError maps to
HTTP 404, anything else to 500. -/
def join_beta (t : UsersTable) (current_user_id : Nat) :
    Except Nat (JoinBetaResponse × UsersTable) :=
  match UserRepo.get_by_id t current_user_id with
  | none => .error 404
  | some latest =>
      if latest.beta = 1 then
        .ok (⟨true, alreadyJoinedMessage, latest.beta⟩, t)
      else
        match UserSvc.join_beta t current_user_id with
        | .ok (updated, t') => .ok (⟨true, joinedMessage, updated.beta⟩, t')
        | .error .userNotFound => .error 404
        | .error _ => .error 500

end AuthRoutes

namespace UserRepo

/-- `applyUpdate` never changes a row's id. -/
theorem applyUpdate_id (u : UserRow) (f : UpdateFields) :
    (applyUpdate u f).id = u.id := rfl

/-- Looking up the updated id after `updateFirst` yields the updated first
match. -/
theorem find?_updateFirst (rows : List UserRow) (uid : Nat)
    (f : UpdateFields) :
    (updateFirst rows uid f).find? (fun u => u.id == uid)
      = (rows.find? (fun u => u.id == uid)).map (fun u => applyUpdate u f) := by
  induction rows with
  | nil => rfl
  | cons x xs ih =>
    by_cases h : x.id = uid
    · rw [updateFirst, if_pos h]
      rw [List.find?_cons_of_pos _ (by simpa [applyUpdate_id] using h),
        List.find?_cons_of_pos _ (by simpa using h)]
      rfl
    · rw [updateFirst, if_neg h]
      rw [List.find?_cons_of_neg _ (by simpa using h),
        List.find?_cons_of_neg _ (by simpa using h)]
      exact ih

/-- `updateFirst` leaves a prefix with no matching id untouched. -/
theorem updateFirst_append (l₁ l₂ : List UserRow) (uid : Nat)
    (f : UpdateFields) (h : ∀ x ∈ l₁, x.id ≠ uid) :
    updateFirst (l₁ ++ l₂) uid f = l₁ ++ updateFirst l₂ uid f := by
  induction l₁ with
  | nil => rfl
  | cons x xs ih =>
    rw [List.cons_append, updateFirst,
      if_neg (h x (List.mem_cons_self _ _)), List.cons_append]
    rw [ih (fun y hy => h y (List.mem_cons_of_mem _ hy))]

end UserRepo

/-- C9: the join-beta operation is idempotent: for a stored user with
`beta = 0`, the first call succeeds with the "now joined" message and stores
`beta = 1`; a second call succeeds with the distinct "already joined"
message, leaves the table unchanged, and the stored beta value is exactly 1. -/
theorem join_beta_idempotent (t : UsersTable) (uid : Nat) (u : UserRow)
    (hu : UserRepo.get_by_id t uid = some u) (hbeta : u.beta = 0) :
    ∃ t1,
      AuthRoutes.join_beta t uid
        = .ok (⟨true, AuthRoutes.joinedMessage, 1⟩, t1)
      ∧ UserRepo.get_by_id t1 uid
          = some (UserRepo.applyUpdate u { beta := some 1 })
      ∧ (UserRepo.applyUpdate u { beta := some 1 }).beta = 1
      ∧ AuthRoutes.join_beta t1 uid
          = .ok (⟨true, AuthRoutes.alreadyJoinedMessage, 1⟩, t1)
      ∧ AuthRoutes.alreadyJoinedMessage ≠ AuthRoutes.joinedMessage := by
  refine ⟨⟨UserRepo.updateFirst t.rows uid { beta := some 1 }, t.nextId⟩,
    ?_, ?_, rfl, ?_, ?_⟩
  · unfold AuthRoutes.join_beta
    simp only [hu]
    rw [if_neg (by rw [hbeta]; decide)]
    unfold UserSvc.join_beta UserRepo.update
    simp only [hu]
    rfl
  · unfold UserRepo.get_by_id
    rw [UserRepo.find?_updateFirst]
    rw [show t.rows.find? (fun v => v.id == uid) = some u from hu]
    rfl
  · unfold AuthRoutes.join_beta
    have hfind : UserRepo.get_by_id
        ⟨UserRepo.updateFirst t.rows uid { beta := some 1 }, t.nextId⟩ uid
        = some (UserRepo.applyUpdate u { beta := some 1 }) := by
      unfold UserRepo.get_by_id
      rw [UserRepo.find?_updateFirst]
      rw [show t.rows.find? (fun v => v.id == uid) = some u from hu]
      rfl
    simp only [hfind]
    rfl
  · decide

/-- C9 witness: the theorem applied to a one-user table with `beta = 0`. -/
theorem join_beta_idempotent_witness :
    ∃ t1,
      AuthRoutes.join_beta ⟨[⟨1, "bob", none, none, none, 0, true, false, 0, none⟩], 2⟩ 1
        = .ok (⟨true, AuthRoutes.joinedMessage, 1⟩, t1)
      ∧ UserRepo.get_by_id t1 1
          = some (UserRepo.applyUpdate
              ⟨1, "bob", none, none, none, 0, true, false, 0, none⟩
              { beta := some 1 })
      ∧ (UserRepo.applyUpdate
            ⟨1, "bob", none, none, none, 0, true, false, 0, none⟩
            { beta := some 1 }).beta = 1
      ∧ AuthRoutes.join_beta t1 1
          = .ok (⟨true, AuthRoutes.alreadyJoinedMessage, 1⟩, t1)
      ∧ AuthRoutes.alreadyJoinedMessage ≠ AuthRoutes.joinedMessage :=
  join_beta_idempotent
    ⟨[⟨1, "bob", none, none, none, 0, true, false, 0, none⟩], 2⟩ 1
    ⟨1, "bob", none, none, none, 0, true, false, 0, none⟩ rfl rfl

/-- C8: OAuth user upsert.  Starting from a table with no row for the oauth
id (and a free username), the first `create_user_from_oauth` creates one
passwordless row; a second call with the same oauth id but different
avatar/trust values succeeds via the update path, leaving exactly one row
with that oauth id, carrying the second call's avatar and trust level, still
passwordless, and adding no new row. -/
theorem create_user_from_oauth_upsert (t0 : UsersTable)
    (un1 un2 oid : String) (a1 a2 : Option String) (tl1 tl2 : Nat)
    (hids : ∀ x ∈ t0.rows, x.id < t0.nextId)
    (hoid : ∀ x ∈ t0.rows, x.oauth_id ≠ some oid)
    (hname : ∀ x ∈ t0.rows, x.username ≠ un1) :
    ∃ r1 t1 r2 t2,
      UserSvc.create_user_from_oauth t0 un1 oid a1 tl1 = .ok (r1, t1)
      ∧ r1.password_hash = none ∧ r1.oauth_id = some oid
      ∧ UserSvc.create_user_from_oauth t1 un2 oid a2 tl2 = .ok (r2, t2)
      ∧ t2.rows.filter (fun x => x.oauth_id == some oid) = [r2]
      ∧ r2.avatar_url = a2 ∧ r2.trust_level = tl2
      ∧ r2.password_hash = none
      ∧ t2.rows.length = t1.rows.length := by
  have hpred : ∀ x ∈ t0.rows, ¬((x.oauth_id == some oid) = true) := by
    intro x hx
    simpa using hoid x hx
  have hfo : t0.rows.find? (fun v => v.oauth_id == some oid) = none :=
    List.find?_eq_none.mpr hpred
  have hfn : t0.rows.find? (fun v => v.username == un1) = none := by
    apply List.find?_eq_none.mpr
    intro x hx
    simpa using hname x hx
  have hid : t0.rows.find? (fun v => v.id == t0.nextId) = none := by
    apply List.find?_eq_none.mpr
    intro x hx
    simpa using Nat.ne_of_lt (hids x hx)
  refine ⟨⟨t0.nextId, un1, none, some oid, a1, tl1, true, false, 0, none⟩,
    ⟨t0.rows ++ [⟨t0.nextId, un1, none, some oid, a1, tl1, true, false, 0, none⟩],
     t0.nextId + 1⟩,
    ⟨t0.nextId, un1, none, some oid, a2, tl2, true, false, 0, none⟩,
    ⟨t0.rows ++ [⟨t0.nextId, un1, none, some oid, a2, tl2, true, false, 0, none⟩],
     t0.nextId + 1⟩,
    ?_, rfl, rfl, ?_, ?_, rfl, rfl, rfl, ?_⟩
  · unfold UserSvc.create_user_from_oauth UserRepo.get_by_oauth_id
    rw [hfo]
    unfold UserRepo.create
    rw [show UserRepo.get_by_username t0 un1 = none from hfn]
    simp [UserRepo.get_by_oauth_id, hfo]
  · have hfind2 : UserRepo.get_by_oauth_id
        ⟨t0.rows ++ [⟨t0.nextId, un1, none, some oid, a1, tl1, true, false, 0, none⟩],
         t0.nextId + 1⟩ oid
        = some ⟨t0.nextId, un1, none, some oid, a1, tl1, true, false, 0, none⟩ := by
      unfold UserRepo.get_by_oauth_id
      rw [List.find?_append, hfo]
      simp
    have hgid : UserRepo.get_by_id
        ⟨t0.rows ++ [⟨t0.nextId, un1, none, some oid, a1, tl1, true, false, 0, none⟩],
         t0.nextId + 1⟩ t0.nextId
        = some ⟨t0.nextId, un1, none, some oid, a1, tl1, true, false, 0, none⟩ := by
      unfold UserRepo.get_by_id
      rw [List.find?_append, hid]
      simp
    have hupdFirst : UserRepo.updateFirst
        (t0.rows ++ [⟨t0.nextId, un1, none, some oid, a1, tl1, true, false, 0, none⟩])
        t0.nextId { avatar_url := some a2, trust_level := some tl2 }
        = t0.rows ++ [⟨t0.nextId, un1, none, some oid, a2, tl2, true, false, 0, none⟩] := by
      rw [UserRepo.updateFirst_append _ _ _ _
        (fun x hx => Nat.ne_of_lt (hids x hx))]
      simp [UserRepo.updateFirst, UserRepo.applyUpdate]
    unfold UserSvc.create_user_from_oauth
    rw [hfind2]
    show UserRepo.update _ t0.nextId _ = _
    unfold UserRepo.update
    rw [hgid]
    show Except.ok (UserRepo.applyUpdate _ _,
      (⟨UserRepo.updateFirst _ t0.nextId _, t0.nextId + 1⟩ : UsersTable)) = _
    rw [hupdFirst]
    rfl
  · rw [List.filter_append, List.filter_eq_nil_iff.mpr hpred]
    simp
  · simp

/-- C8 witness: the theorem applied to the empty table, with two different
avatar/trust values. -/
theorem create_user_from_oauth_upsert_witness :
    ∃ r1 t1 r2 t2,
      UserSvc.create_user_from_oauth ⟨[], 0⟩ "alice" "github:7" (some "a1") 1
        = .ok (r1, t1)
      ∧ r1.password_hash = none ∧ r1.oauth_id = some "github:7"
      ∧ UserSvc.create_user_from_oauth t1 "alice" "github:7" (some "a2") 3
        = .ok (r2, t2)
      ∧ t2.rows.filter (fun x => x.oauth_id == some "github:7") = [r2]
      ∧ r2.avatar_url = some "a2" ∧ r2.trust_level = 3
      ∧ r2.password_hash = none
      ∧ t2.rows.length = t1.rows.length :=
  create_user_from_oauth_upsert ⟨[], 0⟩ "alice" "alice" "github:7"
    (some "a1") (some "a2") 1 3
    (fun x hx => absurd hx (List.not_mem_nil x))
    (fun x hx => absurd hx (List.not_mem_nil x))
    (fun x hx => absurd hx (List.not_mem_nil x))

/-! ## API-key authentication, database path
(src/app/api/deps_flexible.py, get_user_from_api_key_with_cache, cache-miss
branch) -/

namespace DepsFlexible

/-- Outcome of the authentication dependency: either the resolved user
together with the key's `config_type` (the code attaches it to the user as
the transient `_config_type` attribute), or an HTTPException status. -/
inductive AuthResult where
  | ok (user : UserRow) (config_type : String)
  | httpError (statusCode : Nat)
deriving DecidableEq, Repr

/-- The cache-miss (database) branch of `get_user_from_api_key_with_cache`:
look the key up by its string (401 if absent, 401 if `not key_record.is_active`),
then the owning user by `key_record.user_id` (404 if absent, 403 if
`not user.is_active`), else return the user with the key's `config_type`.
No branch reads `expires_at`. -/
def get_user_from_api_key_db (apiKeys : List APIKeyRow)
    (users : List UserRow) (api_key : String) : AuthResult :=
  match apiKeys.find? (fun k => k.key == api_key) with
  | none => .httpError 401
  | some key_record =>
      if key_record.is_active then
        match users.find? (fun u => u.id == key_record.user_id) with
        | none => .httpError 404
        | some user =>
            if user.is_active then .ok user key_record.config_type
            else .httpError 403
      else .httpError 401

/-- Erase a key row's `expires_at` field. -/
def clearExpiry (k : APIKeyRow) : APIKeyRow := { k with expires_at := none }

/-- Key lookup commutes with erasing `expires_at` (the predicate only reads
the key string). -/
theorem find?_map_clearExpiry (l : List APIKeyRow) (s : String) :
    (l.map clearExpiry).find? (fun k => k.key == s)
      = (l.find? (fun k => k.key == s)).map clearExpiry := by
  induction l with
  | nil => rfl
  | cons a l ih =>
    rw [List.map_cons, List.find?_cons, List.find?_cons]
    show (match a.key == s with
          | true => some (clearExpiry a)
          | false => (l.map clearExpiry).find? (fun k => k.key == s))
        = Option.map clearExpiry
            (match a.key == s with
             | true => some a
             | false => l.find? (fun k => k.key == s))
    cases a.key == s with
    | false => exact ih
    | true => rfl

/-- With an active key record, the authentication result is decided by the
owner lookup alone. -/
theorem auth_result_active (apiKeys : List APIKeyRow) (users : List UserRow)
    (api_key : String) (k : APIKeyRow)
    (hf : apiKeys.find? (fun x => x.key == api_key) = some k)
    (hk : k.is_active = true) :
    get_user_from_api_key_db apiKeys users api_key
      = (match users.find? (fun u => u.id == k.user_id) with
         | none => .httpError 404
         | some user =>
             if user.is_active then .ok user k.config_type
             else .httpError 403) := by
  unfold get_user_from_api_key_db
  simp only [hf, hk, if_true]

end DepsFlexible

/-- C10: API-key authentication never consults `expires_at`: the result is
invariant under erasing every key's `expires_at`; the database path rejects
with 401 exactly when the key row is absent or inactive; with an active key,
a missing owner row gives 404, an inactive owner 403, and an active owner
succeeds — in particular a key whose `expires_at` lies in the past still
authenticates. -/
theorem api_key_auth_ignores_expires_at (apiKeys : List APIKeyRow)
    (users : List UserRow) (api_key : String) :
    (DepsFlexible.get_user_from_api_key_db (apiKeys.map DepsFlexible.clearExpiry)
        users api_key
      = DepsFlexible.get_user_from_api_key_db apiKeys users api_key)
    ∧ (DepsFlexible.get_user_from_api_key_db apiKeys users api_key
        = .httpError 401
       ↔ (apiKeys.find? (fun k => k.key == api_key) = none
          ∨ ∃ k, apiKeys.find? (fun k => k.key == api_key) = some k
              ∧ k.is_active = false))
    ∧ (∀ k, apiKeys.find? (fun x => x.key == api_key) = some k →
        k.is_active = true →
        (users.find? (fun x => x.id == k.user_id) = none →
          DepsFlexible.get_user_from_api_key_db apiKeys users api_key
            = .httpError 404)
        ∧ (∀ u, users.find? (fun x => x.id == k.user_id) = some u →
            (u.is_active = false →
              DepsFlexible.get_user_from_api_key_db apiKeys users api_key
                = .httpError 403)
            ∧ (u.is_active = true →
              DepsFlexible.get_user_from_api_key_db apiKeys users api_key
                = .ok u k.config_type))) := by
  refine ⟨?_, ?_, ?_⟩
  · unfold DepsFlexible.get_user_from_api_key_db
    rw [DepsFlexible.find?_map_clearExpiry]
    cases apiKeys.find? (fun k => k.key == api_key) with
    | none => rfl
    | some k => rfl
  · constructor
    · intro h
      cases hf : apiKeys.find? (fun x => x.key == api_key) with
      | none => exact Or.inl rfl
      | some k =>
        cases hk : k.is_active with
        | false => exact Or.inr ⟨k, rfl, hk⟩
        | true =>
          exfalso
          rw [DepsFlexible.auth_result_active apiKeys users api_key k hf hk]
            at h
          cases hu : users.find? (fun u => u.id == k.user_id) with
          | none =>
            rw [hu] at h
            have h' : DepsFlexible.AuthResult.httpError 404
                = DepsFlexible.AuthResult.httpError 401 := h
            exact absurd h' (by decide)
          | some u =>
            rw [hu] at h
            have h' : (if u.is_active = true
                  then DepsFlexible.AuthResult.ok u k.config_type
                  else DepsFlexible.AuthResult.httpError 403)
                = DepsFlexible.AuthResult.httpError 401 := h
            cases hua : u.is_active with
            | false =>
              rw [hua] at h'
              simp only [Bool.false_eq_true, if_false] at h'
              exact absurd h' (by decide)
            | true =>
              rw [hua] at h'
              rw [if_pos rfl] at h'
              exact DepsFlexible.AuthResult.noConfusion h'
    · rintro (hf | ⟨k, hfk, hk⟩)
      · unfold DepsFlexible.get_user_from_api_key_db
        rw [hf]
      · unfold DepsFlexible.get_user_from_api_key_db
        simp only [hfk, hk, Bool.false_eq_true, if_false]
  · intro k hfk hk
    constructor
    · intro hu
      unfold DepsFlexible.get_user_from_api_key_db
      rw [hfk]
      simp [hk, hu]
    · intro u hu
      constructor
      · intro hua
        unfold DepsFlexible.get_user_from_api_key_db
        rw [hfk]
        simp [hk, hu, hua]
      · intro hua
        unfold DepsFlexible.get_user_from_api_key_db
        rw [hfk]
        simp [hk, hu, hua]

/-- C10 witness: a key with `is_active = true` and an `expires_at` in the
past (a negative timestamp relative to any present moment) still
authenticates its active owner. -/
theorem api_key_auth_ignores_expires_at_witness :
    DepsFlexible.get_user_from_api_key_db
        [⟨1, 7, "sk-k", none, "kiro", true, none, some (-1000)⟩]
        [⟨7, "eve", none, none, none, 0, true, false, 1, none⟩] "sk-k"
      = .ok ⟨7, "eve", none, none, none, 0, true, false, 1, none⟩ "kiro" :=
  (((api_key_auth_ignores_expires_at
      [⟨1, 7, "sk-k", none, "kiro", true, none, some (-1000)⟩]
      [⟨7, "eve", none, none, none, 0, true, false, 1, none⟩] "sk-k").2.2
    ⟨1, 7, "sk-k", none, "kiro", true, none, some (-1000)⟩ (by decide)
    rfl).2 ⟨7, "eve", none, none, none, 0, true, false, 1, none⟩
    (by decide)).2 rfl

/-! ## AuthService refresh rotation (src/app/services/auth_service.py).
The JWT helpers (app/core/security.py) and the Redis refresh-token registry
(app/cache/redis_client.py) are not under src/; they are modelled from the
spec (sections 4.3 and 4.6). -/

namespace AuthSvc

/-- A refresh token as the JWT layer presents it: its unique id (`jti`), its
subject (`sub`, the user id), and whether signature verification / expiry
checking would fail on it.  Jtis are modelled as naturals minted from a
counter. -/
structure RefreshToken where
  jti : Nat
  sub : Nat
  expired : Bool
  wellFormed : Bool
deriving DecidableEq, Repr

/-- The domain errors raised along the refresh path. -/
inductive AuthError where
  | invalidToken
  | tokenExpired
  | tokenBlacklisted
  | userNotFound
  | accountDisabled
deriving DecidableEq, Repr

/-- The state refresh_tokens reads and writes: the cache's valid-refresh-token
registry (the set of stored jtis), the users table, and the freshness counter
for newly minted jtis (every token minted so far has `jti < nextJti`). -/
structure AuthState where
  registry : List Nat
  users : List UserRow
  nextJti : Nat
deriving DecidableEq, Repr

/-- Modelled from the spec: `verify_refresh_token` (app/core/security.py is
not under src/): decoding fails with TokenExpired on an expired token and
InvalidToken on a malformed one, else returns the payload. -/
def verify_refresh_token (tok : RefreshToken) : Except AuthError RefreshToken :=
  if tok.expired then .error .tokenExpired
  else if tok.wellFormed then .ok tok
  else .error .invalidToken

/-- Modelled from the spec: `RedisClient.is_refresh_token_valid(jti)` — a
TTL-based existence check in the refresh-token registry. -/
def is_refresh_token_valid (s : AuthState) (jti : Nat) : Bool :=
  s.registry.contains jti

/-- Modelled from the spec: `RedisClient.store_refresh_token(user_id, jti,
data, ttl)` registers the jti. -/
def store_refresh_token (s : AuthState) (jti : Nat) : AuthState :=
  { s with registry := jti :: s.registry }

/-- Modelled from the spec: `RedisClient.revoke_refresh_token(jti)` removes
the jti from the registry. -/
def revoke_refresh_token (s : AuthState) (jti : Nat) : AuthState :=
  { s with registry := s.registry.filter (fun j => ! (j == jti)) }

/-- Modelled from the spec: `generate_token_pair` mints an access token and a
refresh token, each with a fresh unique jti; the access token is opaque here
(its jti as a natural). -/
def generate_token_pair (s : AuthState) (uid : Nat) :
    Nat × RefreshToken × AuthState :=
  (s.nextJti, ⟨s.nextJti + 1, uid, false, true⟩,
   { s with nextJti := s.nextJti + 2 })

/-- `AuthService.create_token_pair` (src): generate both tokens, extract the
refresh token's jti and register it in the cache. -/
def create_token_pair (s : AuthState) (user : UserRow) :
    Nat × RefreshToken × AuthState :=
  let p := generate_token_pair s user.id
  (p.1, p.2.1, store_refresh_token p.2.2 p.2.1.jti)

/-- `AuthService.refresh_tokens` (src): verify the refresh token; reject
TokenBlacklisted when its jti is not in the valid-refresh-token registry;
load the user (UserNotFound / AccountDisabled); mint a new pair; then revoke
the old jti — rotation happens only after the new pair is minted. -/
def refresh_tokens (s : AuthState) (refresh_token : RefreshToken) :
    Except AuthError (Nat × RefreshToken × UserRow × AuthState) :=
  match verify_refresh_token refresh_token with
  | .error e => .error e
  | .ok payload =>
      if is_refresh_token_valid s payload.jti then
        match s.users.find? (fun u => u.id == payload.sub) with
        | none => .error .userNotFound
        | some user =>
            if user.is_active then
              let p := create_token_pair s user
              .ok (p.1, p.2.1, user, revoke_refresh_token p.2.2 refresh_token.jti)
            else .error .accountDisabled
      else .error .tokenBlacklisted

/-- Filtering a jti out of the registry makes its membership test false. -/
theorem contains_filter_ne (l : List Nat) (x : Nat) :
    (l.filter (fun j => ! (j == x))).contains x = false := by
  induction l with
  | nil => rfl
  | cons a l ih =>
    by_cases h : a = x
    · rw [List.filter_cons_of_neg (by simp [h])]
      exact ih
    · rw [List.filter_cons_of_pos (by simp [h])]
      simp only [List.contains_cons, ih, Bool.or_false]
      simpa using fun e => absurd e.symm h

end AuthSvc

/-- C1: refresh rotation.  If `refresh_tokens` succeeds on a refresh token
R1, it returns a new pair and the resulting state no longer lists R1's jti
in the valid-refresh-token registry; a second `refresh_tokens(R1)` on that
state fails with TokenBlacklisted — a used refresh token never yields a
second pair. -/
theorem refresh_rotation (s : AuthSvc.AuthState) (R1 : AuthSvc.RefreshToken)
    (A2 : Nat) (R2 : AuthSvc.RefreshToken) (u : UserRow)
    (s1 : AuthSvc.AuthState)
    (hok : AuthSvc.refresh_tokens s R1 = .ok (A2, R2, u, s1)) :
    AuthSvc.is_refresh_token_valid s1 R1.jti = false
    ∧ AuthSvc.refresh_tokens s1 R1 = .error .tokenBlacklisted := by
  cases hexp : R1.expired with
  | true =>
    have h0 : AuthSvc.refresh_tokens s R1 = .error .tokenExpired := by
      simp [AuthSvc.refresh_tokens, AuthSvc.verify_refresh_token, hexp]
    rw [h0] at hok
    exact Except.noConfusion hok
  | false =>
  cases hwf : R1.wellFormed with
  | false =>
    have h0 : AuthSvc.refresh_tokens s R1 = .error .invalidToken := by
      simp [AuthSvc.refresh_tokens, AuthSvc.verify_refresh_token, hexp, hwf]
    rw [h0] at hok
    exact Except.noConfusion hok
  | true =>
  cases hval : AuthSvc.is_refresh_token_valid s R1.jti with
  | false =>
    have h0 : AuthSvc.refresh_tokens s R1 = .error .tokenBlacklisted := by
      simp [AuthSvc.refresh_tokens, AuthSvc.verify_refresh_token, hexp, hwf,
        hval]
    rw [h0] at hok
    exact Except.noConfusion hok
  | true =>
  cases hfind : s.users.find? (fun v => v.id == R1.sub) with
  | none =>
    have h0 : AuthSvc.refresh_tokens s R1 = .error .userNotFound := by
      simp [AuthSvc.refresh_tokens, AuthSvc.verify_refresh_token, hexp, hwf,
        hval, hfind]
    rw [h0] at hok
    exact Except.noConfusion hok
  | some usr =>
  cases hact : usr.is_active with
  | false =>
    have h0 : AuthSvc.refresh_tokens s R1 = .error .accountDisabled := by
      simp [AuthSvc.refresh_tokens, AuthSvc.verify_refresh_token, hexp, hwf,
        hval, hfind, hact]
    rw [h0] at hok
    exact Except.noConfusion hok
  | true =>
  have heq : AuthSvc.refresh_tokens s R1
      = .ok ((AuthSvc.create_token_pair s usr).1,
             (AuthSvc.create_token_pair s usr).2.1, usr,
             AuthSvc.revoke_refresh_token
               (AuthSvc.create_token_pair s usr).2.2 R1.jti) := by
    simp [AuthSvc.refresh_tokens, AuthSvc.verify_refresh_token, hexp, hwf,
      hval, hfind, hact]
  rw [heq] at hok
  have htup := Except.ok.inj hok
  have hs1 : s1 = AuthSvc.revoke_refresh_token
      (AuthSvc.store_refresh_token { s with nextJti := s.nextJti + 2 }
        (s.nextJti + 1)) R1.jti :=
    (congrArg (fun p => p.2.2.2) htup).symm
  have hvalid : AuthSvc.is_refresh_token_valid s1 R1.jti = false := by
    rw [hs1]
    show (((s.nextJti + 1) :: s.registry).filter
        (fun j => ! (j == R1.jti))).contains R1.jti = false
    exact AuthSvc.contains_filter_ne _ _
  refine ⟨hvalid, ?_⟩
  simp [AuthSvc.refresh_tokens, AuthSvc.verify_refresh_token, hexp, hwf,
    hvalid]

/-- C1 witness: a concrete state holding one valid refresh token for an
active user; the first refresh succeeds and the theorem yields the
TokenBlacklisted rejection of the replay. -/
theorem refresh_rotation_witness :
    AuthSvc.is_refresh_token_valid
        ⟨[11], [⟨3, "u", none, none, none, 0, true, false, 0, none⟩], 12⟩ 5
      = false
    ∧ AuthSvc.refresh_tokens
        ⟨[11], [⟨3, "u", none, none, none, 0, true, false, 0, none⟩], 12⟩
        ⟨5, 3, false, true⟩
      = .error .tokenBlacklisted :=
  refresh_rotation
    ⟨[5], [⟨3, "u", none, none, none, 0, true, false, 0, none⟩], 10⟩
    ⟨5, 3, false, true⟩ 10 ⟨11, 3, false, true⟩
    ⟨3, "u", none, none, none, 0, true, false, 0, none⟩
    ⟨[11], [⟨3, "u", none, none, none, 0, true, false, 0, none⟩], 12⟩
    rfl

/-! ## AnthropicAdapter: request and response conversion
(src/app/services/anthropic_adapter.py) -/

namespace Adapter

/-- An Anthropic image source: base64 data or a plain URL. -/
inductive AImageSource where
  | base64 (media_type data : String)
  | url (u : String)
deriving DecidableEq, Repr

/-- The content a `tool_result` block carries: a plain string or a list of
sub-blocks of which only an optional `text` attribute is read. -/
inductive ATRContent where
  | str (s : String)
  | items (l : List (Option String))
deriving DecidableEq, Repr

/-- One Anthropic request content block.  A `tool_use` block's `input` is an
object; it is carried here in its JSON-serialized form, so the code's
`json.dumps(tool_input)` is the identity on it. -/
inductive ABlock where
  | text (text : String)
  | image (source : AImageSource)
  | toolUse (id name input : String)
  | toolResult (tool_use_id : String) (content : ATRContent)
deriving DecidableEq, Repr

/-- A message's `content`: plain string or block list. -/
inductive AContent where
  | str (s : String)
  | blocks (bs : List ABlock)
deriving DecidableEq, Repr

/-- One Anthropic request message. -/
structure AMessage where
  role : String
  content : AContent
deriving DecidableEq, Repr

/-- An Anthropic tool definition (`input_schema` carried opaquely as its
`type`, `properties` JSON text, and optional `required` list). -/
structure ATool where
  name : String
  description : Option String
  schemaType : String
  properties : String
  required : Option (List String)
deriving DecidableEq, Repr

/-- Anthropic `tool_choice` variants; `other` stands for any unrecognized
type, which the code defaults to `auto`. -/
inductive AToolChoice where
  | auto
  | any
  | tool (name : Option String)
  | noneChoice
  | other
deriving DecidableEq, Repr

/-- The Anthropic Messages request (fields the converter reads). -/
structure AnthropicMessagesRequest where
  model : String
  messages : List AMessage
  system : Option AContent
  max_tokens : Nat
  stream : Bool
  temperature : Option Int
  top_p : Option Int
  stop_sequences : Option (List String)
  tools : Option (List ATool)
  tool_choice : Option AToolChoice
deriving DecidableEq, Repr

/-- One part of an OpenAI multimodal content list. -/
inductive OPart where
  | text (text : String)
  | imageUrl (url : String)
deriving DecidableEq, Repr

/-- OpenAI request message content: JSON null, a string, or a part list. -/
inductive OReqContent where
  | null
  | str (s : String)
  | parts (ps : List OPart)
deriving DecidableEq, Repr

/-- One OpenAI `tool_calls` entry (always `type: function`); `farguments` is
the serialized JSON arguments string. -/
structure OReqToolCall where
  id : String
  fname : String
  farguments : String
deriving DecidableEq, Repr

/-- One OpenAI request message; `tool_calls = []` stands for the key being
absent. -/
structure OReqMessage where
  role : String
  content : OReqContent
  tool_calls : List OReqToolCall
  tool_call_id : Option String
deriving DecidableEq, Repr

/-- An OpenAI function tool definition. -/
structure OTool where
  fname : String
  description : Option String
  parametersType : String
  properties : String
  required : Option (List String)
deriving DecidableEq, Repr

/-- OpenAI `tool_choice`: a bare string or a function selector. -/
inductive OToolChoice where
  | str (s : String)
  | function (name : String)
deriving DecidableEq, Repr

/-- The OpenAI-format request dict built by the converter. -/
structure OReq where
  model : String
  messages : List OReqMessage
  max_tokens : Nat
  stream : Bool
  temperature : Option Int
  top_p : Option Int
  stop : Option (List String)
  tools : Option (List OTool)
  tool_choice : Option OToolChoice
deriving DecidableEq, Repr

/-- The `text` attribute of a block, when it is a text block (the only block
kind carrying one in the typed schema). -/
def textOfBlock : ABlock → Option String
  | .text t => some t
  | _ => none

/-- The OpenAI part one block contributes on the multimodal path: text maps
1:1, base64 images become data URLs, URL images pass through, anything else
is skipped. -/
def multimodalPart : ABlock → Option OPart
  | .text t => some (.text t)
  | .image (.base64 mt d) =>
      some (.imageUrl ("data:" ++ mt ++ ";base64," ++ d))
  | .image (.url u) => some (.imageUrl u)
  | _ => none

/-- `_convert_multimodal_message`; a lone text part collapses to a plain
string. -/
def _convert_multimodal_message (role : String) (content : List ABlock) :
    OReqMessage :=
  let ps : List OPart := content.filterMap multimodalPart
  match ps with
  | [.text t] => ⟨role, .str t, [], none⟩
  | _ => ⟨role, .parts ps, [], none⟩

/-- `_convert_assistant_tool_use_message`: join text blocks with newlines
(None when there are none) and turn every `tool_use` block into a
`tool_calls` entry. -/
def _convert_assistant_tool_use_message (content : List ABlock) :
    OReqMessage :=
  let text_parts := content.filterMap textOfBlock
  let tool_calls : List OReqToolCall := content.filterMap (fun b =>
    match b with
    | .toolUse i n args => some ⟨i, n, args⟩
    | _ => none)
  ⟨"assistant",
   if text_parts.isEmpty then .null
   else .str (String.intercalate "\n" text_parts),
   tool_calls, none⟩

/-- `_convert_user_tool_result_message`: each `tool_result` block becomes
its own `role: tool` message; list content keeps only truthy `text`
attributes, joined with newlines. -/
def _convert_user_tool_result_message (content : List ABlock) :
    List OReqMessage :=
  content.filterMap (fun b =>
    match b with
    | .toolResult tid c =>
        let content_str :=
          match c with
          | .str s => s
          | .items l =>
              String.intercalate "\n" (l.filterMap (fun o =>
                match o with
                | some t => if t = "" then none else some t
                | none => none))
        some ⟨"tool", .str content_str, [], some tid⟩
    | _ => none)

/-- `_convert_anthropic_message_to_openai`, flattened to the list of OpenAI
messages it contributes (the Python caller appends a dict, extends a list,
and skips falsy values — all equivalent to this flattening). -/
def _convert_anthropic_message_to_openai (msg : AMessage) :
    List OReqMessage :=
  match msg.content with
  | .str s => [⟨msg.role, .str s, [], none⟩]
  | .blocks content =>
      let has_tool_use := content.any (fun b =>
        match b with | .toolUse _ _ _ => true | _ => false)
      let has_tool_result := content.any (fun b =>
        match b with | .toolResult _ _ => true | _ => false)
      if has_tool_use && msg.role == "assistant" then
        [_convert_assistant_tool_use_message content]
      else if has_tool_result && msg.role == "user" then
        _convert_user_tool_result_message content
      else
        [_convert_multimodal_message msg.role content]

/-- The `system` field's contribution: a truthy string becomes one system
message; a truthy block list becomes one system message joining the `text`
attributes with newlines. -/
def systemToMessages : Option AContent → List OReqMessage
  | none => []
  | some (.str s) => if s = "" then [] else [⟨"system", .str s, [], none⟩]
  | some (.blocks bs) =>
      if bs = [] then []
      else [⟨"system",
        .str (String.intercalate "\n" (bs.filterMap textOfBlock)), [], none⟩]

/-- `_convert_anthropic_tools_to_openai`; `description`/`required` are only
set when truthy. -/
def _convert_anthropic_tools_to_openai (tools : List ATool) : List OTool :=
  tools.map (fun t =>
    ⟨t.name,
     (match t.description with
      | some d => if d = "" then none else some d
      | none => none),
     t.schemaType, t.properties,
     (match t.required with
      | some [] => none
      | some l => some l
      | none => none)⟩)

/-- `_convert_anthropic_tool_choice_to_openai`. -/
def _convert_anthropic_tool_choice_to_openai : AToolChoice → OToolChoice
  | .auto => .str "auto"
  | .any => .str "required"
  | .tool (some n) => if n = "" then .str "auto" else .function n
  | .tool none => .str "auto"
  | .noneChoice => .str "none"
  | .other => .str "auto"

/-- `anthropic_to_openai_request`. -/
def anthropic_to_openai_request (request : AnthropicMessagesRequest) : OReq :=
  { model := request.model
    messages := systemToMessages request.system
      ++ request.messages.flatMap _convert_anthropic_message_to_openai
    max_tokens := request.max_tokens
    stream := request.stream
    temperature := request.temperature
    top_p := request.top_p
    stop := match request.stop_sequences with
      | some [] => none
      | some l => some l
      | none => none
    tools := match request.tools with
      | some [] => none
      | some l => some (_convert_anthropic_tools_to_openai l)
      | none => none
    tool_choice := request.tool_choice.map
      _convert_anthropic_tool_choice_to_openai }

end Adapter

namespace Adapter

/-- One entry of the OpenAI response's `tool_calls`; `id = none` stands for
the key being absent, which the code replaces with a generated
`toolu_<24-hex>` id; `fname`/`farguments` carry their `.get` defaults
(empty string / empty JSON object) already applied. -/
structure ORespToolCall where
  callType : String
  id : Option String
  fname : String
  farguments : String
deriving DecidableEq, Repr

/-- The first choice's `message` in an OpenAI response. -/
structure ORespMessage where
  content : Option String
  tool_calls : List ORespToolCall
deriving DecidableEq, Repr

/-- One OpenAI response choice; `finish_reason = none` stands for the key
being absent (`.get` default `"stop"`). -/
structure ORespChoice where
  message : ORespMessage
  finish_reason : Option String
deriving DecidableEq, Repr

/-- An OpenAI (non-streaming) response; usage carried with `.get` defaults
applied. -/
structure OResponse where
  id : Option String
  choices : List ORespChoice
  prompt_tokens : Nat
  completion_tokens : Nat
deriving DecidableEq, Repr

/-- One Anthropic response content block.  A `tool_use` block's `input`
carries the arguments JSON in serialized form (the code's
parse-then-use is elided; parse failure degrades to an empty object). -/
inductive ARespBlock where
  | text (text : String)
  | toolUse (id name input : String)
deriving DecidableEq, Repr

/-- The Anthropic Messages response the converter builds. -/
structure AnthropicMessagesResponse where
  id : String
  model : String
  content : List ARespBlock
  stop_reason : String
  input_tokens : Nat
  output_tokens : Nat
deriving DecidableEq, Repr

/-- `STOP_REASON_FROM_OPENAI.get(finish_reason, "end_turn")`. -/
def stopReasonFromOpenai (fr : String) : String :=
  if fr = "stop" then "end_turn"
  else if fr = "length" then "max_tokens"
  else if fr = "tool_calls" then "tool_use"
  else if fr = "content_filter" then "end_turn"
  else if fr = "function_call" then "tool_use"
  else "end_turn"

/-- Stand-in for the `toolu_` + 24 random hex characters the code generates
when a tool call carries no id. -/
def generatedToolId : String := "toolu_generated"

/-- Stand-in for a generated response id (`uuid4().hex` truncated). -/
def generatedResponseId : String := "generated"

/-- `openai_to_anthropic_response`.  `choices` defaults to one empty choice
when absent (`.get("choices", [{}])[0]`): `headD` covers that; text content
is kept only when truthy; function-typed tool calls become `tool_use`
blocks; an empty result gets one empty text block; any tool call forces
`stop_reason = "tool_use"`. -/
def openai_to_anthropic_response (r : OResponse) (model : String) :
    AnthropicMessagesResponse :=
  let choice := r.choices.headD ⟨⟨none, []⟩, none⟩
  let message := choice.message
  let contentText : List ARespBlock :=
    match message.content with
    | some t => if t = "" then [] else [.text t]
    | none => []
  let toolBlocks : List ARespBlock := message.tool_calls.filterMap (fun tc =>
    if tc.callType = "function" then
      some (.toolUse (tc.id.getD generatedToolId) tc.fname tc.farguments)
    else none)
  let content0 := contentText ++ toolBlocks
  let content := if content0.isEmpty then [.text ""] else content0
  let finish_reason := choice.finish_reason.getD "stop"
  let stop_reason :=
    if message.tool_calls.isEmpty then stopReasonFromOpenai finish_reason
    else "tool_use"
  { id := "msg_" ++ r.id.getD generatedResponseId
    model := model
    content := content
    stop_reason := stop_reason
    input_tokens := r.prompt_tokens
    output_tokens := r.completion_tokens }

/-- A content block that is a text block. -/
def isTextBlock : ABlock → Bool
  | .text _ => true
  | _ => false

/-- Content made only of text (a plain string, or text blocks only). -/
def textOnly : AContent → Bool
  | .str _ => true
  | .blocks bs => bs.all isTextBlock

/-- The text strings an Anthropic content value carries, in order. -/
def aTexts : AContent → List String
  | .str s => [s]
  | .blocks bs => bs.filterMap textOfBlock

/-- The text strings an OpenAI request content value carries, in order. -/
def oTexts : OReqContent → List String
  | .null => []
  | .str s => [s]
  | .parts ps => ps.filterMap (fun p =>
      match p with | .text t => some t | _ => none)

/-- All text carried by a list of converted OpenAI messages. -/
def oTextsOfMessages (ms : List OReqMessage) : List String :=
  ms.flatMap (fun m => oTexts m.content)

/-- The synthetic OpenAI response used by the round-trip property: the given
text as the sole choice's message content with `finish_reason: "stop"` and
no tool calls. -/
def synthResponse (s : String) : OResponse :=
  ⟨some "synthetic", [⟨⟨some s, []⟩, some "stop"⟩], 0, 0⟩

/-- Convert one Anthropic message to OpenAI form, then feed all its text,
re-joined, through the response converter as a synthetic OpenAI response. -/
def roundTripText (model : String) (m : AMessage) : AnthropicMessagesResponse :=
  openai_to_anthropic_response
    (synthResponse (String.join
      (oTextsOfMessages (_convert_anthropic_message_to_openai m))))
    model

end Adapter

namespace Adapter

/-- The synthetic response always converts to exactly one text block holding
the given string (the empty string via the no-content fallback) with stop
reason `end_turn`. -/
theorem synthResponse_roundtrip (s : String) (model : String) :
    (openai_to_anthropic_response (synthResponse s) model).content
      = [.text s]
    ∧ (openai_to_anthropic_response (synthResponse s) model).stop_reason
      = "end_turn" := by
  by_cases h : s = ""
  · subst h
    exact ⟨rfl, rfl⟩
  · constructor
    · simp [openai_to_anthropic_response, synthResponse, h]
    · simp [openai_to_anthropic_response, synthResponse, stopReasonFromOpenai]

/-- Mapping strings into text parts and reading the texts back is the
identity. -/
theorem oTexts_parts_map (l : List String) :
    oTexts (.parts (l.map OPart.text)) = l := by
  induction l with
  | nil => rfl
  | cons t rest ih => exact congrArg (fun z => t :: z) ih

/-- On text-only block lists, the multimodal part extraction is the text
extraction wrapped in text parts. -/
theorem filterMap_parts_text (bs : List ABlock) :
    (∀ b ∈ bs, isTextBlock b = true) →
    bs.filterMap multimodalPart = (bs.filterMap textOfBlock).map OPart.text := by
  induction bs with
  | nil => intro _; rfl
  | cons b l ih =>
    intro hall
    have hb := hall b (List.mem_cons_self _ _)
    have hl := fun x hx => hall x (List.mem_cons_of_mem b hx)
    cases b with
    | text t => exact congrArg (fun z => OPart.text t :: z) (ih hl)
    | image s => exact absurd hb (by cases s <;> simp [isTextBlock])
    | toolUse i n a => exact absurd hb (by simp [isTextBlock])
    | toolResult i c => exact absurd hb (by simp [isTextBlock])

/-- Converting a text-only message preserves its texts verbatim. -/
theorem convert_message_text_only (m : AMessage)
    (h : textOnly m.content = true) :
    oTextsOfMessages (_convert_anthropic_message_to_openai m)
      = aTexts m.content := by
  cases hc : m.content with
  | str s =>
    simp [_convert_anthropic_message_to_openai, hc, oTextsOfMessages, oTexts,
      aTexts]
  | blocks bs =>
    rw [hc] at h
    have hall : ∀ b ∈ bs, isTextBlock b = true := by
      simpa [textOnly] using h
    have hnotu : (bs.any fun b =>
        match b with | ABlock.toolUse _ _ _ => true | _ => false) = false := by
      rw [List.any_eq_false]
      intro b hb
      have hb' := hall b hb
      cases b <;> simp_all [isTextBlock]
    have hnotr : (bs.any fun b =>
        match b with | ABlock.toolResult _ _ => true | _ => false) = false := by
      rw [List.any_eq_false]
      intro b hb
      have hb' := hall b hb
      cases b <;> simp_all [isTextBlock]
    unfold _convert_anthropic_message_to_openai
    rw [hc]
    simp only [hnotu, hnotr, Bool.false_and, Bool.false_eq_true, if_false]
    show oTextsOfMessages [_convert_multimodal_message m.role bs]
        = bs.filterMap textOfBlock
    unfold _convert_multimodal_message
    rw [filterMap_parts_text bs hall]
    generalize bs.filterMap textOfBlock = texts
    cases texts with
    | nil => rfl
    | cons t rest =>
      cases rest with
      | nil => rfl
      | cons t2 rest2 =>
        show oTexts (.parts (OPart.text t :: OPart.text t2
          :: rest2.map OPart.text)) ++ [] = t :: t2 :: rest2
        rw [List.append_nil]
        exact oTexts_parts_map (t :: t2 :: rest2)

end Adapter

/-- C5: text round trip.  For a request whose messages carry only text
(plain strings or text blocks), the converted OpenAI request is the system
contribution followed by each message's conversion; each converted message
carries exactly the original texts; and feeding a message's converted text
back through `openai_to_anthropic_response` as a synthetic OpenAI response
with `finish_reason: "stop"` reproduces the original text as the sole text
content block, with stop reason `end_turn`. -/
theorem anthropic_text_round_trip (req : Adapter.AnthropicMessagesRequest)
    (h : ∀ m ∈ req.messages, Adapter.textOnly m.content = true) :
    ((Adapter.anthropic_to_openai_request req).messages
       = Adapter.systemToMessages req.system
         ++ req.messages.flatMap Adapter._convert_anthropic_message_to_openai)
    ∧ ∀ m ∈ req.messages,
        Adapter.oTextsOfMessages
            (Adapter._convert_anthropic_message_to_openai m)
          = Adapter.aTexts m.content
        ∧ (Adapter.roundTripText req.model m).content
            = [.text (String.join (Adapter.aTexts m.content))]
        ∧ (Adapter.roundTripText req.model m).stop_reason = "end_turn" := by
  refine ⟨rfl, ?_⟩
  intro m hm
  have hpres := Adapter.convert_message_text_only m (h m hm)
  refine ⟨hpres, ?_, ?_⟩
  · unfold Adapter.roundTripText
    rw [hpres]
    exact (Adapter.synthResponse_roundtrip _ req.model).1
  · unfold Adapter.roundTripText
    rw [hpres]
    exact (Adapter.synthResponse_roundtrip _ req.model).2

/-- C5 witness: a two-message request (a plain-string user message and an
assistant message of two text blocks) whose texts survive the round trip. -/
theorem anthropic_text_round_trip_witness :
    ((Adapter.anthropic_to_openai_request
        ⟨"m", [⟨"user", .str "hi"⟩,
               ⟨"assistant", .blocks [.text "a", .text "b"]⟩],
         some (.str "sys"), 16, false, none, none, none, none, none⟩).messages
       = Adapter.systemToMessages (some (.str "sys"))
         ++ ([⟨"user", .str "hi"⟩,
              ⟨"assistant", .blocks [.text "a", .text "b"]⟩] :
               List Adapter.AMessage).flatMap
               Adapter._convert_anthropic_message_to_openai)
    ∧ ∀ m ∈ ([⟨"user", .str "hi"⟩,
              ⟨"assistant", .blocks [.text "a", .text "b"]⟩] :
               List Adapter.AMessage),
        Adapter.oTextsOfMessages
            (Adapter._convert_anthropic_message_to_openai m)
          = Adapter.aTexts m.content
        ∧ (Adapter.roundTripText "m" m).content
            = [.text (String.join (Adapter.aTexts m.content))]
        ∧ (Adapter.roundTripText "m" m).stop_reason = "end_turn" :=
  anthropic_text_round_trip
    ⟨"m", [⟨"user", .str "hi"⟩,
           ⟨"assistant", .blocks [.text "a", .text "b"]⟩],
     some (.str "sys"), 16, false, none, none, none, none, none⟩
    (by decide)

/-! ## AnthropicAdapter: streaming translation
(`convert_openai_stream_to_anthropic`, src/app/services/anthropic_adapter.py).
The embedding consumes the stream at the level of parsed SSE `data:` JSON
objects: the byte-buffer line splitting, the `[DONE]` terminator and lines
that fail to parse as JSON are all skipped by the code and correspond to
dropping them from the input list. -/

namespace Adapter

/-- One entry of a streaming delta's `tool_calls` list.  `id` carries the
`.get('id', '')` default (so `""` stands for absent-or-empty); `index` is
`None` when the key is absent (`.get('index', 0)`); `fname`/`fargs` are
`None` when the `function` sub-object omits them (or is absent itself). -/
structure OStreamToolCallDelta where
  id : String
  index : Option Nat
  fname : Option String
  fargs : Option String
deriving DecidableEq, Repr

/-- A streaming `choices[0].delta`; `tool_calls = some []` stands for the
key being present with an empty list (which still closes an open thinking
block). -/
structure OStreamDelta where
  reasoning_content : Option String
  reasoning : Option String
  thinking_content : Option String
  content : Option String
  tool_calls : Option (List OStreamToolCallDelta)
deriving DecidableEq, Repr

/-- A streaming choice. -/
structure OStreamChoice where
  delta : OStreamDelta
  finish_reason : Option String
deriving DecidableEq, Repr

/-- A streaming chunk's `usage` object (keys optional). -/
structure OStreamUsage where
  prompt_tokens : Option Nat
  completion_tokens : Option Nat
deriving DecidableEq, Repr

/-- One parsed SSE data object. -/
structure OStreamChunk where
  usage : Option OStreamUsage
  choices : List OStreamChoice
deriving DecidableEq, Repr

/-- The Anthropic SSE events the translator emits (each carrying the fields
the code serializes into the `data:` JSON). -/
inductive AEvent where
  | messageStart
  | blockStartThinking (index : Nat)
  | blockStartText (index : Nat)
  | blockStartToolUse (index : Nat) (id name : String)
  | thinkingDelta (index : Nat) (thinking : String)
  | textDelta (index : Nat) (text : String)
  | inputJsonDelta (index : Nat) (partial_json : String)
  | blockStop (index : Nat)
  | messageDelta (stop_reason : String) (output_tokens : Nat)
  | messageStop
deriving DecidableEq, Repr

/-- One accumulated tool call (`{'id':…,'name':…,'arguments':…}`). -/
structure ToolAcc where
  id : String
  name : String
  arguments : String
deriving DecidableEq, Repr

/-- The state the translator threads across chunks.  `tool_calls` models the
Python dict `current_tool_calls` as insertion-ordered key/value pairs. -/
structure StreamState where
  input_tokens : Nat
  output_tokens : Nat
  finish_reason : Option String
  tool_calls : List (Nat × ToolAcc)
  block_index : Nat
  thinking_started : Bool
  thinking_stopped : Bool
  text_started : Bool
deriving DecidableEq, Repr

/-- The initial translator state. -/
def initStreamState : StreamState := ⟨0, 0, none, [], 0, false, false, false⟩

/-- `delta.get('reasoning_content') or delta.get('reasoning') or
delta.get('thinking_content')`: the first truthy value, if any. -/
def reasoningDelta (d : OStreamDelta) : Option String :=
  let pick : Option String → Option String := fun o =>
    match o with
    | some s => if s = "" then none else some s
    | none => none
  match pick d.reasoning_content with
  | some s => some s
  | none =>
      match pick d.reasoning with
      | some s => some s
      | none => pick d.thinking_content

/-- Python-dict membership on the ordered pair list. -/
def dictContains (tcs : List (Nat × ToolAcc)) (k : Nat) : Bool :=
  tcs.any (fun p => p.1 == k)

/-- Python-dict read (the call sites only read keys they inserted). -/
def dictGet (tcs : List (Nat × ToolAcc)) (k : Nat) : ToolAcc :=
  ((tcs.find? (fun p => p.1 == k)).map (fun p => p.2)).getD ⟨"", "", ""⟩

/-- Python-dict write: update in place, or append preserving insertion
order. -/
def dictSet (tcs : List (Nat × ToolAcc)) (k : Nat) (v : ToolAcc) :
    List (Nat × ToolAcc) :=
  if dictContains tcs k then
    tcs.map (fun p => if p.1 == k then (k, v) else p)
  else tcs ++ [(k, v)]

/-- Correlate one tool-call fragment and fold it into the accumulator:
find an existing entry by truthy id; otherwise a truthy unseen id gets a
fresh index `len(current_tool_calls)`, and an absent id falls back to the
upstream `index` (default 0); then create the entry if the index is new,
overwrite `id` when truthy, overwrite `name` when present, and append
`arguments` when present. -/
def processToolCall (tcs : List (Nat × ToolAcc)) (tc : OStreamToolCallDelta) :
    List (Nat × ToolAcc) :=
  let tc_id := tc.id
  let found := if tc_id ≠ "" then
      (tcs.find? (fun p => p.2.id == tc_id)).map (fun p => p.1)
    else none
  let truthyIds := tcs.filterMap (fun p =>
    if p.2.id = "" then none else some p.2.id)
  let tc_index :=
    match found with
    | some k => k
    | none =>
        if tc_id ≠ "" ∧ ¬ (truthyIds.contains tc_id = true) then tcs.length
        else tc.index.getD 0
  let tcs1 :=
    if dictContains tcs tc_index then tcs
    else tcs ++ [(tc_index, ⟨tc_id, "", ""⟩)]
  let cur := dictGet tcs1 tc_index
  let cur1 := if tc_id ≠ "" then { cur with id := tc_id } else cur
  let cur2 :=
    match tc.fname with
    | some n => { cur1 with name := n }
    | none => cur1
  let cur3 :=
    match tc.fargs with
    | some a => { cur2 with arguments := cur2.arguments ++ a }
    | none => cur2
  dictSet tcs1 tc_index cur3

/-- Track the latest-seen usage numbers. -/
def applyUsage (st : StreamState) (c : OStreamChunk) : StreamState :=
  match c.usage with
  | some u =>
      { st with input_tokens := u.prompt_tokens.getD st.input_tokens,
                output_tokens := u.completion_tokens.getD st.output_tokens }
  | none => st

/-- Track the latest truthy `finish_reason`. -/
def applyFinish (st : StreamState) (ch : OStreamChoice) : StreamState :=
  match ch.finish_reason with
  | some fr => if fr = "" then st else { st with finish_reason := some fr }
  | none => st

/-- Reasoning deltas: open the thinking block on first occurrence, then emit
a `thinking_delta`. -/
def applyReasoning (st : StreamState) (d : OStreamDelta) :
    StreamState × List AEvent :=
  match reasoningDelta d with
  | some rd =>
      if st.thinking_started then
        (st, [.thinkingDelta st.block_index rd])
      else
        ({ st with thinking_started := true },
         [.blockStartThinking st.block_index,
          .thinkingDelta st.block_index rd])
  | none => (st, [])

/-- Close a still-open thinking block and advance the block index. -/
def closeThinking (st : StreamState) : StreamState × List AEvent :=
  if st.thinking_started ∧ ¬ st.thinking_stopped then
    ({ st with thinking_stopped := true, block_index := st.block_index + 1 },
     [.blockStop st.block_index])
  else (st, [])

/-- Truthy content deltas: close an open thinking block, open the text
block on first occurrence, and emit a `text_delta`. -/
def applyContent (st : StreamState) (d : OStreamDelta) :
    StreamState × List AEvent :=
  match d.content with
  | some c =>
      if c = "" then (st, [])
      else
        let p1 := closeThinking st
        let p2 :=
          if p1.1.text_started then (p1.1, ([] : List AEvent))
          else ({ p1.1 with text_started := true },
                [AEvent.blockStartText p1.1.block_index])
        (p2.1, p1.2 ++ p2.2 ++ [.textDelta p2.1.block_index c])
  | none => (st, [])

/-- A present `tool_calls` key: close an open thinking block, then fold
every fragment into the accumulator (no events are emitted for the
fragments themselves). -/
def applyToolCalls (st : StreamState) (d : OStreamDelta) :
    StreamState × List AEvent :=
  match d.tool_calls with
  | some tcl =>
      let p1 := closeThinking st
      ({ p1.1 with tool_calls := tcl.foldl processToolCall p1.1.tool_calls },
       p1.2)
  | none => (st, [])

/-- Process one parsed SSE data object: usage, then `choices[0]` (skipping
chunks with no choices), finish_reason, reasoning, content, tool calls. -/
def processChunk (st : StreamState) (c : OStreamChunk) :
    StreamState × List AEvent :=
  let st := applyUsage st c
  match c.choices.head? with
  | none => (st, [])
  | some ch =>
      let st := applyFinish st ch
      let p1 := applyReasoning st ch.delta
      let p2 := applyContent p1.1 ch.delta
      let p3 := applyToolCalls p2.1 ch.delta
      (p3.1, p1.2 ++ p2.2 ++ p3.2)

/-- Fold the translator over the whole chunk list. -/
def processChunks : StreamState → List OStreamChunk → StreamState × List AEvent
  | st, [] => (st, [])
  | st, c :: cs =>
      ((processChunks (processChunk st c).1 cs).1,
       (processChunk st c).2 ++ (processChunks (processChunk st c).1 cs).2)

/-- The serialized empty JSON object. -/
def emptyJsonObject : String := "\x7b\x7d"

/-- The tool-use blocks emitted after the stream ends, in dict insertion
order, each at `base + key`: `content_block_start` (generated id when the
accumulated one is empty), an `input_json_delta` only when the accumulated
arguments parse to a non-empty object (the JSON parse/re-serialize is
elided: the emitted `partial_json` is the accumulated arguments string),
and `content_block_stop`. -/
def toolBlockEvents (base : Nat) (tcs : List (Nat × ToolAcc)) : List AEvent :=
  tcs.flatMap (fun p =>
    let bi := base + p.1
    [AEvent.blockStartToolUse bi
        (if p.2.id = "" then generatedToolId else p.2.id) p.2.name]
      ++ (if p.2.arguments ≠ "" ∧ p.2.arguments ≠ emptyJsonObject then
            [AEvent.inputJsonDelta bi p.2.arguments]
          else [])
      ++ [AEvent.blockStop bi])

/-- The final stop reason: `tool_use` when any tool call accumulated, else
the mapping of the last seen finish_reason, else `end_turn`. -/
def finalStopReason (st : StreamState) : String :=
  if st.tool_calls.isEmpty then
    match st.finish_reason with
    | some fr => stopReasonFromOpenai fr
    | none => "end_turn"
  else "tool_use"

/-- The cleanup phase after the upstream stream ends: close a still-open
thinking block; open (and in any case close) the text block; emit the
tool-use blocks (their indices continue after the text block's); then
`message_delta` with the stop reason and latest output-token count, and
`message_stop`. -/
def finalizeStream (st : StreamState) : List AEvent :=
  let q :=
    if st.thinking_started ∧ ¬ st.thinking_stopped
    then (st.block_index + 1, [AEvent.blockStop st.block_index])
    else (st.block_index, ([] : List AEvent))
  let evs2 := if st.text_started then ([] : List AEvent)
              else [AEvent.blockStartText q.1]
  q.2 ++ evs2 ++ [AEvent.blockStop q.1]
    ++ toolBlockEvents (q.1 + 1) st.tool_calls
    ++ [AEvent.messageDelta (finalStopReason st) st.output_tokens,
        AEvent.messageStop]

/-- `convert_openai_stream_to_anthropic`: `message_start`, then the
per-chunk events, then the cleanup phase. -/
def convert_openai_stream_to_anthropic (chunks : List OStreamChunk) :
    List AEvent :=
  AEvent.messageStart
    :: ((processChunks initStreamState chunks).2
        ++ finalizeStream (processChunks initStreamState chunks).1)

end Adapter

/-- C2: streaming thinking-then-text ordering.  For the upstream stream of
two `reasoning_content` deltas, two `content` deltas, then a
`finish_reason: "stop"` chunk, the translator emits exactly, in order:
`message_start`; `content_block_start` of the thinking block at index 0;
two `thinking_delta`s; `content_block_stop`; `content_block_start` of the
text block at index 1; two `text_delta`s; `content_block_stop`;
`message_delta` with stop reason `end_turn`; `message_stop` — each exactly
once, with the thinking block at index 0 and the text block at index 1. -/
theorem stream_thinking_then_text_order :
    Adapter.convert_openai_stream_to_anthropic
      [⟨none, [⟨⟨some "r1", none, none, none, none⟩, none⟩]⟩,
       ⟨none, [⟨⟨some "r2", none, none, none, none⟩, none⟩]⟩,
       ⟨none, [⟨⟨none, none, none, some "t1", none⟩, none⟩]⟩,
       ⟨none, [⟨⟨none, none, none, some "t2", none⟩, none⟩]⟩,
       ⟨none, [⟨⟨none, none, none, none, none⟩, some "stop"⟩]⟩]
    = [.messageStart,
       .blockStartThinking 0,
       .thinkingDelta 0 "r1",
       .thinkingDelta 0 "r2",
       .blockStop 0,
       .blockStartText 1,
       .textDelta 1 "t1",
       .textDelta 1 "t2",
       .blockStop 1,
       .messageDelta "end_turn" 0,
       .messageStop] := by
  rfl

namespace Adapter

/-- No truthy `content` delta in a chunk's first choice. -/
def noContentDelta (c : OStreamChunk) : Bool :=
  match c.choices.head? with
  | none => true
  | some ch =>
      match ch.delta.content with
      | none => true
      | some s => s == ""

theorem applyUsage_text (st : StreamState) (c : OStreamChunk) :
    (applyUsage st c).text_started = st.text_started := by
  unfold applyUsage
  cases c.usage <;> rfl

theorem applyFinish_text (st : StreamState) (ch : OStreamChoice) :
    (applyFinish st ch).text_started = st.text_started := by
  unfold applyFinish
  cases ch.finish_reason with
  | none => rfl
  | some fr => by_cases h : fr = "" <;> simp [h]

theorem applyReasoning_text (st : StreamState) (d : OStreamDelta) :
    (applyReasoning st d).1.text_started = st.text_started := by
  unfold applyReasoning
  cases reasoningDelta d with
  | none => rfl
  | some rd => by_cases h : st.thinking_started <;> simp [h]

theorem closeThinking_text (st : StreamState) :
    (closeThinking st).1.text_started = st.text_started := by
  unfold closeThinking
  by_cases h : st.thinking_started = true ∧ ¬ st.thinking_stopped = true
  · rw [if_pos h]
  · rw [if_neg h]

theorem applyToolCalls_text (st : StreamState) (d : OStreamDelta) :
    (applyToolCalls st d).1.text_started = st.text_started := by
  unfold applyToolCalls
  cases d.tool_calls with
  | none => rfl
  | some tcl => exact closeThinking_text st

theorem applyContent_text_of_none (st : StreamState) (d : OStreamDelta)
    (h : d.content = none ∨ d.content = some "") :
    (applyContent st d).1.text_started = st.text_started := by
  unfold applyContent
  rcases h with h | h
  · rw [h]
  · rw [h]
    simp

/-- Chunks with no truthy content delta never open the text block. -/
theorem processChunk_text_of_noContent (st : StreamState) (c : OStreamChunk)
    (h : noContentDelta c = true) :
    (processChunk st c).1.text_started = st.text_started := by
  unfold processChunk
  unfold noContentDelta at h
  cases hh : c.choices.head? with
  | none => exact applyUsage_text st c
  | some ch =>
      rw [hh] at h
      have h' : (match ch.delta.content with
          | none => true
          | some s => s == "") = true := h
      have hcd : ch.delta.content = none ∨ ch.delta.content = some "" := by
        cases hcon : ch.delta.content with
        | none => exact Or.inl rfl
        | some s =>
          rw [hcon] at h'
          exact Or.inr (by rw [show s = "" from by simpa using h'])
      rw [applyToolCalls_text, applyContent_text_of_none _ _ hcd,
        applyReasoning_text, applyFinish_text, applyUsage_text]

/-- Fold version of `processChunk_text_of_noContent`. -/
theorem processChunks_text_of_noContent (cs : List OStreamChunk) :
    ∀ st : StreamState, (∀ c ∈ cs, noContentDelta c = true) →
    (processChunks st cs).1.text_started = st.text_started := by
  induction cs with
  | nil => intro st _; rfl
  | cons c cs ih =>
    intro st hall
    show (processChunks (processChunk st c).1 cs).1.text_started
        = st.text_started
    rw [ih (processChunk st c).1
      (fun x hx => hall x (List.mem_cons_of_mem c hx))]
    exact processChunk_text_of_noContent st c (hall c (List.mem_cons_self c cs))

/-- When the text block was never opened, the cleanup phase opens it and
immediately closes it, before the tool blocks and the terminal events. -/
theorem finalizeStream_no_text (st : StreamState)
    (h : st.text_started = false) :
    ∃ evs1 i, finalizeStream st
      = evs1 ++ [AEvent.blockStartText i, AEvent.blockStop i]
        ++ toolBlockEvents (i + 1) st.tool_calls
        ++ [AEvent.messageDelta (finalStopReason st) st.output_tokens,
            AEvent.messageStop] := by
  by_cases ht : st.thinking_started = true ∧ ¬ st.thinking_stopped = true
  · refine ⟨[AEvent.blockStop st.block_index], st.block_index + 1, ?_⟩
    unfold finalizeStream
    rw [if_pos ht, h]
    simp
  · refine ⟨[], st.block_index, ?_⟩
    unfold finalizeStream
    rw [if_neg ht, h]
    simp

end Adapter

/-- C6: every Anthropic response the adapter produces has at least one
content block.  Non-streaming: an OpenAI response with no truthy text
content and no tool calls converts to exactly one empty text block.
Streaming: for any stream in which no truthy content delta ever arrives,
the translator still opens and immediately closes one empty text content
block before `message_delta`/`message_stop`. -/
theorem adapter_always_emits_content_block
    (r : Adapter.OResponse) (model : String)
    (chunks : List Adapter.OStreamChunk)
    (hc : (r.choices.headD ⟨⟨none, []⟩, none⟩).message.content = none
          ∨ (r.choices.headD ⟨⟨none, []⟩, none⟩).message.content = some "")
    (htc : (r.choices.headD ⟨⟨none, []⟩, none⟩).message.tool_calls = [])
    (hs : ∀ c ∈ chunks, Adapter.noContentDelta c = true) :
    (Adapter.openai_to_anthropic_response r model).content = [.text ""]
    ∧ ∃ pre i toolPart sr ot,
        Adapter.convert_openai_stream_to_anthropic chunks
          = pre ++ [.blockStartText i, .blockStop i] ++ toolPart
            ++ [.messageDelta sr ot, .messageStop] := by
  constructor
  · have hc' : (r.choices.head?.getD ⟨⟨none, []⟩, none⟩).message.content = none
        ∨ (r.choices.head?.getD ⟨⟨none, []⟩, none⟩).message.content = some "" := by
      simpa using hc
    have htc' : (r.choices.head?.getD ⟨⟨none, []⟩, none⟩).message.tool_calls
        = [] := by simpa using htc
    unfold Adapter.openai_to_anthropic_response
    rcases hc' with hc' | hc' <;> simp [hc', htc']
  · have hts : (Adapter.processChunks Adapter.initStreamState chunks).1.text_started
        = false :=
      Adapter.processChunks_text_of_noContent chunks Adapter.initStreamState hs
    obtain ⟨evs1, i, hfin⟩ := Adapter.finalizeStream_no_text
      (Adapter.processChunks Adapter.initStreamState chunks).1 hts
    refine ⟨.messageStart
        :: ((Adapter.processChunks Adapter.initStreamState chunks).2 ++ evs1),
      i,
      Adapter.toolBlockEvents (i + 1)
        (Adapter.processChunks Adapter.initStreamState chunks).1.tool_calls,
      Adapter.finalStopReason
        (Adapter.processChunks Adapter.initStreamState chunks).1,
      (Adapter.processChunks Adapter.initStreamState chunks).1.output_tokens,
      ?_⟩
    unfold Adapter.convert_openai_stream_to_anthropic
    rw [hfin]
    simp [List.append_assoc]

/-- C6 witness: an OpenAI response with null content and no tool calls, and
a thinking-only upstream stream, both still yield a text content block. -/
theorem adapter_always_emits_content_block_witness :
    (Adapter.openai_to_anthropic_response
        ⟨some "x", [⟨⟨none, []⟩, some "stop"⟩], 0, 0⟩ "m").content
      = [.text ""]
    ∧ ∃ pre i toolPart sr ot,
        Adapter.convert_openai_stream_to_anthropic
          [⟨none, [⟨⟨some "think", none, none, none, none⟩, none⟩]⟩]
          = pre ++ [.blockStartText i, .blockStop i] ++ toolPart
            ++ [.messageDelta sr ot, .messageStop] :=
  adapter_always_emits_content_block
    ⟨some "x", [⟨⟨none, []⟩, some "stop"⟩], 0, 0⟩ "m"
    [⟨none, [⟨⟨some "think", none, none, none, none⟩, none⟩]⟩]
    (Or.inl rfl) rfl (by decide)
